import Mathlib

/-!
Verification development for the drraw_nopoint gateway.

The definitions below are a shallow embedding of the repository's core
modules: the in-memory task store (`src/lib/task-manager.ts`), the async
task processor (`TaskProcessor` in `src/lib/swagger-config.ts`), the
per-session daily quota ledger (`src/lib/database/session-usage-memory.ts`
and its variants), the image-generation controllers
(`src/api/controllers/images.ts`), the signed upload pipeline
(`uploadImageBuffer` in `src/lib/swagger-config.ts`) and the async submit
controllers. JavaScript `Date` values are embedded as `Nat` instants that
are passed explicitly; `Map` objects are embedded as association lists in
insertion order; upstream I/O is embedded as explicit oracles listing the
outcome of each request that would be issued.
-/

namespace Drraw

/-- Decidable equality for `Except` results, used to evaluate embedded
operations on concrete inputs. -/
instance instExceptDecEq {ε α : Type} [DecidableEq ε] [DecidableEq α] :
    DecidableEq (Except ε α) := fun a b =>
  match a, b with
  | Except.ok x, Except.ok y =>
    if h : x = y then isTrue (by rw [h])
    else isFalse (by intro hc; injection hc; contradiction)
  | Except.error x, Except.error y =>
    if h : x = y then isTrue (by rw [h])
    else isFalse (by intro hc; injection hc; contradiction)
  | Except.ok _, Except.error _ => isFalse (by intro hc; exact Except.noConfusion hc)
  | Except.error _, Except.ok _ => isFalse (by intro hc; exact Except.noConfusion hc)

/-! ## Task data model (src/src/lib/task-manager.ts) -/

/-- `TaskType` enum from task-manager.ts. -/
inductive TaskType where
  | image_generation
  | image_composition
  | video_generation
deriving DecidableEq, Repr

/-- `TaskStatus` enum from task-manager.ts. -/
inductive TaskStatus where
  | pending
  | running
  | completed
  | failed
  | cancelled
deriving DecidableEq, Repr

/-- `TaskPriority.LOW` from task-manager.ts. -/
def TaskPriority.LOW : Nat := 1

/-- `TaskPriority.NORMAL` from task-manager.ts. -/
def TaskPriority.NORMAL : Nat := 5

/-- `TaskPriority.HIGH` from task-manager.ts. -/
def TaskPriority.HIGH : Nat := 10

/-- The `Task` interface from task-manager.ts.  `params`, `userId` and
`token` carry no behavior relevant to the claims and are omitted; task
results are embedded as lists of asset URLs (the controllers always
return arrays of URL strings). -/
structure Task where
  id : Nat
  type : TaskType
  status : TaskStatus
  priority : Nat
  result : Option (List String) := none
  error : Option String := none
  progress : Option Nat := none
  createdAt : Nat
  updatedAt : Nat
  startedAt : Option Nat := none
  completedAt : Option Nat := none
deriving DecidableEq, Repr

/-- Association-list lookup mirroring `Map.prototype.get`. -/
def lookupTask : List (Nat × Task) → Nat → Option Task
  | [], _ => none
  | (k, t) :: rest, id => if k = id then some t else lookupTask rest id

/-- Association-list update mirroring `Map.prototype.set` on a present key
(the JS code mutates the looked-up object in place, which is observationally
a keyed replacement). -/
def replaceTask : List (Nat × Task) → Nat → Task → List (Nat × Task)
  | [], _, _ => []
  | (k, t) :: rest, id, t' =>
      if k = id then (k, t') :: rest else (k, t) :: replaceTask rest id t'

/-- State of the `TaskManager` singleton: the `tasks` map and the key set
of the `taskTimeouts` map (an id is a member exactly while a timeout timer
is armed for it). -/
structure TMState where
  tasks : List (Nat × Task) := []
  taskTimeouts : List Nat := []
deriving DecidableEq, Repr

/-- The `extra` argument of `TaskManager.updateTaskStatus`.  The JS guards
are `if (extra?.result)`, `if (extra?.error)` and
`extra?.progress !== undefined`; every call site passes an array value for
`result` and a nonempty string for `error`, both truthy, so `Option.isSome`
is an exact embedding of the guards at all reachable inputs. -/
structure UpdateExtra where
  result : Option (List String) := none
  error : Option String := none
  progress : Option Nat := none
deriving DecidableEq, Repr

namespace TaskManager

/-- `TaskManager.createTask` (task-manager.ts lines 79-94): fresh ids come
from `uuidv4()`, embedded as an explicitly supplied `newId`. -/
def createTask (st : TMState) (now : Nat) (newId : Nat) (ty : TaskType)
    (priority : Nat) : Task × TMState :=
  let task : Task :=
    { id := newId, type := ty, status := TaskStatus.pending,
      priority := priority, createdAt := now, updatedAt := now }
  (task, { st with tasks := st.tasks ++ [(newId, task)] })

/-- The field mutations `TaskManager.updateTaskStatus` performs on the
looked-up task object (task-manager.ts lines 113-125): status and
`updatedAt` unconditionally, `result`/`error`/`progress` when supplied,
`startedAt` on a first RUNNING transition, `completedAt` on
COMPLETED/FAILED. -/
def applyUpdate (task : Task) (now : Nat) (status : TaskStatus)
    (extra : UpdateExtra) : Task :=
  let task := { task with status := status, updatedAt := now }
  let task :=
    match extra.result with
    | some r => { task with result := some r }
    | none => task
  let task :=
    match extra.error with
    | some e => { task with error := some e }
    | none => task
  let task :=
    match extra.progress with
    | some p => { task with progress := some p }
    | none => task
  let task :=
    if status = TaskStatus.running then
      if task.startedAt.isNone then { task with startedAt := some now } else task
    else task
  if status = TaskStatus.completed ∨ status = TaskStatus.failed then
    { task with completedAt := some now }
  else task

/-- `TaskManager.updateTaskStatus` (task-manager.ts lines 106-136).  Note
that the source applies the requested status to any existing task without
consulting the current status; on a COMPLETED/FAILED transition the armed
timeout timer is cleared. -/
def updateTaskStatus (st : TMState) (now : Nat) (taskId : Nat)
    (status : TaskStatus) (extra : UpdateExtra) : Bool × TMState :=
  match lookupTask st.tasks taskId with
  | none => (false, st)
  | some task =>
    let task := applyUpdate task now status extra
    if status = TaskStatus.completed ∨ status = TaskStatus.failed then
      (true, { tasks := replaceTask st.tasks taskId task,
               taskTimeouts := st.taskTimeouts.filter (fun k => k ≠ taskId) })
    else
      (true, { st with tasks := replaceTask st.tasks taskId task })

/-- `TaskManager.cancelTask` (task-manager.ts lines 161-170): refuses only
`completed` and `failed`; any other existing task (including one already
`cancelled`) is re-transitioned to `cancelled`. -/
def cancelTask (st : TMState) (now : Nat) (taskId : Nat) : Bool × TMState :=
  match lookupTask st.tasks taskId with
  | none => (false, st)
  | some task =>
    if task.status = TaskStatus.completed ∨ task.status = TaskStatus.failed then
      (false, st)
    else
      updateTaskStatus st now taskId TaskStatus.cancelled {}

/-- `TaskManager.setTaskTimeout` (task-manager.ts lines 175-181): arms a
timer for the task. -/
def setTaskTimeout (st : TMState) (taskId : Nat) : TMState :=
  if taskId ∈ st.taskTimeouts then st
  else { st with taskTimeouts := taskId :: st.taskTimeouts }

/-- Expiry of a timer armed by `setTaskTimeout`: the callback runs only if
the timer was not cleared, and transitions the task to `failed` with the
timeout error message. -/
def fireTimeout (st : TMState) (now : Nat) (taskId : Nat) : TMState :=
  if taskId ∈ st.taskTimeouts then
    (updateTaskStatus st now taskId TaskStatus.failed
      { error := some "task execution timed out" }).2
  else st

/-- Stable insertion for descending-priority order, matching the stable
`Array.prototype.sort` with comparator `(a, b) => b.priority - a.priority`:
an element moves past another only when its priority is strictly lower,
so equal-priority elements keep their original relative order. -/
def insertByPriorityDesc (t : Task) : List Task → List Task
  | [] => [t]
  | h :: rest =>
      if t.priority < h.priority then h :: insertByPriorityDesc t rest
      else t :: h :: rest

/-- Stable sort by descending priority. -/
def sortByPriorityDesc : List Task → List Task
  | [] => []
  | h :: rest => insertByPriorityDesc h (sortByPriorityDesc rest)

/-- `TaskManager.getPendingTasks` (task-manager.ts lines 186-190). -/
def getPendingTasks (st : TMState) : List Task :=
  sortByPriorityDesc
    ((st.tasks.map Prod.snd).filter (fun t => t.status = TaskStatus.pending))

end TaskManager

/-! ## Quota ledger (src/src/lib/database/session-usage-memory.ts) -/

/-- The per-service type used throughout the quota ledger. -/
inductive ServiceType where
  | image
  | video
  | avatar
deriving DecidableEq, Repr

/-- A `SessionUsage` row.  Timestamps are embedded as `Nat` instants. -/
structure SessionUsage where
  session_id : String
  date : String
  image_count : Nat := 0
  video_count : Nat := 0
  avatar_count : Nat := 0
  created_at : Nat
  updated_at : Nat
deriving DecidableEq, Repr

namespace MemoryUsageDB

/-- `DAILY_LIMITS` of the in-memory ledger
(session-usage-memory.ts lines 30-34). -/
def DAILY_LIMITS : ServiceType → Nat
  | ServiceType.image => 50
  | ServiceType.video => 10
  | ServiceType.avatar => 5

/-- The key `sessionId + "_" + today` used by the in-memory ledger. -/
def usageKey (sessionId today : String) : String :=
  sessionId ++ "_" ++ today

/-- The ledger state: the `data` map in insertion order. -/
structure DB where
  data : List (String × SessionUsage) := []
deriving DecidableEq, Repr

/-- Association-list lookup mirroring `Map.prototype.get`. -/
def lookupUsage : List (String × SessionUsage) → String → Option SessionUsage
  | [], _ => none
  | (k, u) :: rest, key => if k = key then some u else lookupUsage rest key

/-- Keyed replacement of a present entry (the JS code mutates the
looked-up row in place). -/
def replaceUsage : List (String × SessionUsage) → String → SessionUsage →
    List (String × SessionUsage)
  | [], _, _ => []
  | (k, u) :: rest, key, u' =>
      if k = key then (k, u') :: rest else (k, u) :: replaceUsage rest key u'

/-- `getCurrentCount` (session-usage-memory.ts lines 248-255). -/
def getCurrentCount (usage : SessionUsage) : ServiceType → Nat
  | ServiceType.image => usage.image_count
  | ServiceType.video => usage.video_count
  | ServiceType.avatar => usage.avatar_count

/-- Result record of `checkUsageLimit`. -/
structure CheckResult where
  allowed : Bool
  remaining : Nat
  current : Nat
  limit : Nat
deriving DecidableEq, Repr

/-- The zeroed row `checkUsageLimit` creates for a `(session, today)` key
with no existing record (session-usage-memory.ts lines 75-87). -/
def freshUsage (sessionId today : String) (now : Nat) : SessionUsage :=
  { session_id := sessionId, date := today,
    created_at := now, updated_at := now }

/-- `MemoryUsageDB.checkUsageLimit` (session-usage-memory.ts lines 63-101).
`today` is the resolved current date string and `now` the current instant;
if no row exists for `(session, today)` a zeroed row is created. -/
def checkUsageLimit (db : DB) (sessionId today : String) (now : Nat)
    (ty : ServiceType) : CheckResult × DB :=
  let key := usageKey sessionId today
  let (usage, db) :=
    match lookupUsage db.data key with
    | some u => (u, db)
    | none =>
      let u := freshUsage sessionId today now
      (u, { data := db.data ++ [(key, u)] })
  let currentCount := getCurrentCount usage ty
  let limit := DAILY_LIMITS ty
  ({ allowed := decide (currentCount < limit),
     remaining := limit - currentCount,
     current := currentCount, limit := limit }, db)

/-- Bump the count of one service in a row and refresh `updated_at`. -/
def bumpCount (usage : SessionUsage) (ty : ServiceType) (now : Nat) :
    SessionUsage :=
  let usage :=
    match ty with
    | ServiceType.image => { usage with image_count := usage.image_count + 1 }
    | ServiceType.video => { usage with video_count := usage.video_count + 1 }
    | ServiceType.avatar => { usage with avatar_count := usage.avatar_count + 1 }
  { usage with updated_at := now }

/-- `MemoryUsageDB.incrementUsage` (session-usage-memory.ts lines 103-122):
performs `checkUsageLimit`, throws on deny, otherwise increments the
count and refreshes `updated_at`. -/
def incrementUsage (db : DB) (sessionId today : String) (now : Nat)
    (ty : ServiceType) : Except String Unit × DB :=
  let key := usageKey sessionId today
  let (check, db1) := checkUsageLimit db sessionId today now ty
  if check.allowed then
    match lookupUsage db1.data key with
    | some usage => (Except.ok (), { data := replaceUsage db1.data key (bumpCount usage ty now) })
    | none => (Except.ok (), db1)
  else
    (Except.error "Daily limit exceeded", db1)

/-- `MemoryUsageDB.getUsage` (session-usage-memory.ts lines 124-127). -/
def getUsage (db : DB) (sessionId date : String) : Option SessionUsage :=
  lookupUsage db.data (usageKey sessionId date)

/-- The current count of a service for a session and day as observed
through the ledger (0 when no row exists). -/
def currentCountOf (db : DB) (sessionId today : String) (ty : ServiceType) : Nat :=
  match getUsage db sessionId today with
  | some u => getCurrentCount u ty
  | none => 0

end MemoryUsageDB

/-- `DAILY_LIMITS` of the relational ledger variant
(src/src/lib/database/session-usage.ts lines 30-34). -/
def SessionUsageDB.DAILY_LIMITS : ServiceType → Nat
  | ServiceType.image => 10
  | ServiceType.video => 2
  | ServiceType.avatar => 1

/-- The exported `DAILY_LIMITS` constant of the usage-limit middleware
(src/unnamed/part_005 lines 12-16). -/
def middlewareDailyLimits : ServiceType → Nat
  | ServiceType.image => 10
  | ServiceType.video => 2
  | ServiceType.avatar => 1

/-! ## Task processor (TaskProcessor in src/src/lib/swagger-config.ts) -/

namespace TaskProcessor

/-- The progress values the SmartPoller progress callback would push
through `updateTaskStatus` (swagger-config.ts line 1085).

Modelled from the spec: the SmartPoller implementation
(`src/lib/smart-poller.ts`) is not under src/; per spec section 4.4 its
reported progress is a monotone value "capped at 95% until the terminal
state is observed", so admissible callback values are bounded by 95.
(In the src images.ts wiring the callback parameter is never invoked, so
the code as shipped produces no such writes at all.) -/
def smartPollerProgressCap : Nat := 95

/-- A callback value sequence is admissible when every value respects the
spec's 95% cap. -/
def pollerCallbackAdmissible (cs : List Nat) : Prop :=
  ∀ c ∈ cs, c ≤ smartPollerProgressCap

/-- Apply a sequence of poll-callback progress writes for task `id`
(each one is `updateTaskStatus(id, RUNNING, { progress })`,
swagger-config.ts line 1085). -/
def applyCallbacks (st : TMState) (now : Nat) (id : Nat) (cs : List Nat) :
    TMState :=
  cs.foldl
    (fun s c =>
      (TaskManager.updateTaskStatus s now id TaskStatus.running
        { progress := some c }).2)
    st

/-- The Task Store writes `TaskProcessor.executeTask` performs on the
success path of an image task (swagger-config.ts lines 1010-1062 together
with `processImageGeneration` line 1071): transition to RUNNING, arm the
type-specific timeout, write progress 10, any poll-callback writes `cs`
(none in the src wiring), write progress 90, then transition to COMPLETED
carrying the result. -/
def executeTaskSuccess (st : TMState) (now : Nat) (id : Nat) (cs : List Nat)
    (r : List String) : TMState :=
  let st1 := (TaskManager.updateTaskStatus st now id TaskStatus.running {}).2
  let st2 := TaskManager.setTaskTimeout st1 id
  let st3 := (TaskManager.updateTaskStatus st2 now id TaskStatus.running
    { progress := some 10 }).2
  let st4 := applyCallbacks st3 now id cs
  let st5 := (TaskManager.updateTaskStatus st4 now id TaskStatus.running
    { progress := some 90 }).2
  (TaskManager.updateTaskStatus st5 now id TaskStatus.completed
    { result := some r }).2

/-- The sequence of progress values stored for a task during one success
run: the worker's own initial write of 10, the poll-callback values `cs`,
and the worker's fixed write of 90 before the completed transition (the
completed transition itself carries no progress). -/
def workerProgressWrites (cs : List Nat) : List Nat :=
  10 :: cs ++ [90]

/-- One scheduler tick's admission choice
(`TaskProcessor.processPendingTasks`, swagger-config.ts lines 966-1005):
if the concurrency cap is already reached nothing is started, otherwise
the pending tasks (priority order) not already running are taken up to
the number of free slots. -/
def processPendingTasksPick (st : TMState) (running : List Nat)
    (maxConcurrent : Nat) : List Task :=
  if maxConcurrent ≤ running.length then []
  else
    let available :=
      (TaskManager.getPendingTasks st).filter (fun t => ¬ t.id ∈ running)
    available.take (maxConcurrent - running.length)

end TaskProcessor

/-! ## Async submit controllers (src/unnamed/part_003) -/

/-- `submitImageGenerationTask` (part_003 lines 11-56): creates the task
with `TaskPriority.NORMAL`. -/
def submitImageGenerationTask (st : TMState) (now : Nat) (newId : Nat) :
    Task × TMState :=
  TaskManager.createTask st now newId TaskType.image_generation
    TaskPriority.NORMAL

/-- `submitImageCompositionTask` (part_003 lines 61-101): creates the task
with `TaskPriority.NORMAL`. -/
def submitImageCompositionTask (st : TMState) (now : Nat) (newId : Nat) :
    Task × TMState :=
  TaskManager.createTask st now newId TaskType.image_composition
    TaskPriority.NORMAL

/-- `submitVideoGenerationTask` (part_003 lines 106-145): creates the task
with `TaskPriority.HIGH`. -/
def submitVideoGenerationTask (st : TMState) (now : Nat) (newId : Nat) :
    Task × TMState :=
  TaskManager.createTask st now newId TaskType.video_generation
    TaskPriority.HIGH

/-! ## Model resolution (getModel in src/src/api/controllers/images.ts) -/

/-- String-keyed association-list lookup standing for property access on
the model-map objects; `none` embeds JS `undefined` (falsy). -/
def lookupStr : List (String × String) → String → Option String
  | [], _ => none
  | (k, v) :: rest, key => if k = key then some v else lookupStr rest key

/-- The model tables `getModel` consults.  The concrete tables
(`IMAGE_MODEL_MAP`, `IMAGE_MODEL_MAP_US`, `DEFAULT_IMAGE_MODEL`,
`DEFAULT_IMAGE_MODEL_US` from `src/api/consts/common.ts`) are not under
src/, so they are carried as explicit parameters; `getModel`'s control
flow, which is what the claims concern, is translated from images.ts. -/
structure ModelMaps where
  cnMap : List (String × String)
  usMap : List (String × String)
  defaultCN : String
  defaultUS : String
deriving DecidableEq, Repr

/-- The `ModelResult` interface of images.ts (`model` is the raw property
read `modelMap[effectiveUserModel]`, which JS leaves `undefined` when the
default itself is unmapped, hence the `Option`). -/
structure ModelResult where
  model : Option String
  userModel : String
deriving DecidableEq, Repr

/-- `getModel` (images.ts lines 48-64).  In the international region an
unmapped model falls back to the US default only when it literally equals
the domestic default and otherwise throws; in the domestic (CN) region an
unmapped model silently becomes the CN default. -/
def getModel (mm : ModelMaps) (model : String) (isInternational : Bool) :
    Except String ModelResult :=
  let modelMap := if isInternational then mm.usMap else mm.cnMap
  let defaultModel := if isInternational then mm.defaultUS else mm.defaultCN
  if isInternational ∧ (lookupStr modelMap model).isNone then
    if model = mm.defaultCN then
      Except.ok { model := lookupStr modelMap defaultModel,
                  userModel := defaultModel }
    else
      Except.error "unsupported model in international region"
  else
    let effectiveUserModel :=
      if (lookupStr modelMap model).isSome then model else defaultModel
    Except.ok { model := lookupStr modelMap effectiveUserModel,
                userModel := effectiveUserModel }

/-! ## Generation controllers (src/src/api/controllers/images.ts) -/

/-- Taxonomy of the controller failure paths, one constructor per
`throw` site reached in the embedded flows.  `quotaExceeded` is the
`APIException(EX.API_IMAGE_GENERATION_FAILED, "reached the daily limit")`
raised on the quota-deny path. -/
inductive GenError where
  | paramsInvalid
  | unsupportedModel (msg : String)
  | quotaExceeded (current limit : Nat)
  | uploadFailed (msg : String)
  | recordIdMissing
  | pollFailed (msg : String)
  | extractionFailed (itemCount : Nat)
deriving DecidableEq, Repr

/-- Externally observable requests a generation flow can issue; used to
state that the deny path contacts no upstream. -/
inductive GenEvent where
  | quotaCheckEv
  | uploadEv
  | submitEv
  | pollEv
  | incrementEv
deriving DecidableEq, Repr

/-- The data the smart-poll phase of a controller run ends with:
the length of the final `item_list` and the URLs extracted from it
(`extractImageUrls` lives in `src/lib/image-utils.ts`, not under src/, so
the extracted URLs are part of the oracle). -/
structure PollData where
  itemListLen : Nat
  urls : List String
deriving DecidableEq, Repr

/-- Oracle fixing the outcome of every upstream request a controller run
would issue: one entry per image upload, the optional
`history_record_id` of the `aigc_draft/generate` response, and the final
polling outcome. -/
structure UpstreamOracle where
  uploadResults : List (Except String String)
  historyId : Option String
  pollResult : Except String PollData
deriving Repr

/-- Sequential upload loop of `generateImageComposition` (images.ts lines
139-163): one upstream upload request per image, aborting on the first
failure. -/
def runUploads : List (Except String String) → Nat →
    (Except String (List String)) × List GenEvent
  | _, 0 => (Except.ok [], [])
  | [], Nat.succ _ => (Except.error "upload oracle exhausted", [GenEvent.uploadEv])
  | r :: rest, Nat.succ n =>
    match r with
    | Except.error e => (Except.error e, [GenEvent.uploadEv])
    | Except.ok uri =>
      match runUploads rest n with
      | (Except.ok uris, evs) => (Except.ok (uri :: uris), GenEvent.uploadEv :: evs)
      | (Except.error e, evs) => (Except.error e, GenEvent.uploadEv :: evs)

/-- Does the prompt contain a digit immediately followed by the CJK
counter used by the `/\d+张/` test in images.ts line 402? -/
def hasCountTagAux : List Char → Bool
  | [] => false
  | [_] => false
  | a :: b :: rest => (a.isDigit && b == '张') || hasCountTagAux (b :: rest)

/-- The `/\d+张/.test(prompt)` check (a match exists exactly when some
occurrence of the counter character is directly preceded by a digit). -/
def hasCountTag (s : String) : Bool :=
  hasCountTagAux s.toList

/-- `pre` is a prefix of the character list. -/
def isPrefixOfChars : List Char → List Char → Bool
  | [], _ => true
  | _ :: _, [] => false
  | a :: as, b :: bs => (a == b) && isPrefixOfChars as bs

/-- `sub` occurs as a contiguous segment of the character list. -/
def isSegmentOfChars (sub : List Char) : List Char → Bool
  | [] => sub.isEmpty
  | c :: rest => isPrefixOfChars sub (c :: rest) || isSegmentOfChars sub rest

/-- `sub` occurs as a substring of `s` (the JS `String.prototype.includes`). -/
def containsSub (s sub : String) : Bool :=
  isSegmentOfChars sub.toList s.toList

/-- The multi-image trigger of `generateImagesInternal` (images.ts lines
398-403). -/
def isJimeng4xMultiImage (userModel prompt : String) : Bool :=
  (userModel == "jimeng-4.0" || userModel == "jimeng-4.1" || userModel == "jimeng-4.5")
    && (containsSub prompt "连续" || containsSub prompt "绘本"
        || containsSub prompt "故事" || hasCountTag prompt)

/-- Shared submit/poll/extract tail of the generation flows (images.ts
lines 229-295 and 451-522): POST `aigc_draft/generate`, require
`history_record_id`, poll `get_history_by_ids` to the terminal data, and
fail when the item list is nonempty but no URL was extracted.  The two
text-to-image branches (basic and multi-image) differ only in poll
parameters (`maxPollCount`, `expectedItemCount`) which no claim concerns,
so they share this tail. -/
def submitAndPoll (up : UpstreamOracle) :
    (Except GenError (List String)) × List GenEvent :=
  match up.historyId with
  | none => (Except.error GenError.recordIdMissing, [GenEvent.submitEv])
  | some _ =>
    match up.pollResult with
    | Except.error e =>
        (Except.error (GenError.pollFailed e), [GenEvent.submitEv, GenEvent.pollEv])
    | Except.ok pd =>
        if pd.urls.length = 0 ∧ 0 < pd.itemListLen then
          (Except.error (GenError.extractionFailed pd.itemListLen),
           [GenEvent.submitEv, GenEvent.pollEv])
        else
          (Except.ok pd.urls, [GenEvent.submitEv, GenEvent.pollEv])

/-- `generateImageComposition` (images.ts lines 86-308).  `prompt` is
typed `String`, making the runtime `typeof prompt` guard vacuous;
`isInternational` is the region bit `parseRegionFromToken` derives from
the credential; `sessionId` is the effective session id; `today`/`now`
embed the clock.  On success the usage increment failure is swallowed
(images.ts lines 300-305). -/
def generateImageComposition (mm : ModelMaps) (model : String)
    (images : List String) (isInternational : Bool)
    (db : MemoryUsageDB.DB) (sessionId today : String) (now : Nat)
    (up : UpstreamOracle) :
    (Except GenError (List String)) × MemoryUsageDB.DB × List GenEvent :=
  if images.length = 0 then (Except.error GenError.paramsInvalid, db, [])
  else
    match getModel mm model isInternational with
    | Except.error e => (Except.error (GenError.unsupportedModel e), db, [])
    | Except.ok _ =>
      let (check, db1) :=
        MemoryUsageDB.checkUsageLimit db sessionId today now ServiceType.image
      if check.allowed then
        match runUploads up.uploadResults images.length with
        | (Except.error e, uploadEvs) =>
            (Except.error (GenError.uploadFailed e), db1,
             GenEvent.quotaCheckEv :: uploadEvs)
        | (Except.ok _, uploadEvs) =>
          match submitAndPoll up with
          | (Except.error e, tailEvs) =>
              (Except.error e, db1, GenEvent.quotaCheckEv :: uploadEvs ++ tailEvs)
          | (Except.ok urls, tailEvs) =>
            let (_, db2) :=
              MemoryUsageDB.incrementUsage db1 sessionId today now
                ServiceType.image
            (Except.ok urls, db2,
             GenEvent.quotaCheckEv :: uploadEvs ++ tailEvs ++ [GenEvent.incrementEv])
      else
        (Except.error (GenError.quotaExceeded check.current check.limit), db1,
         [GenEvent.quotaCheckEv])

/-- `generateImages` (images.ts lines 313-359) together with
`generateImagesInternal` (lines 364-523): region and model resolution,
quota check (deny aborts before any upstream request), a second model
resolution inside the internal function, the multi-image branch choice,
submit/poll/extract, and the swallowed usage increment. -/
def generateImages (mm : ModelMaps) (model prompt : String)
    (isInternational : Bool) (db : MemoryUsageDB.DB)
    (sessionId today : String) (now : Nat) (up : UpstreamOracle) :
    (Except GenError (List String)) × MemoryUsageDB.DB × List GenEvent :=
  match getModel mm model isInternational with
  | Except.error e => (Except.error (GenError.unsupportedModel e), db, [])
  | Except.ok _ =>
    let (check, db1) :=
      MemoryUsageDB.checkUsageLimit db sessionId today now ServiceType.image
    if check.allowed then
      match getModel mm model isInternational with
      | Except.error e =>
          (Except.error (GenError.unsupportedModel e), db1, [GenEvent.quotaCheckEv])
      | Except.ok res =>
        let _multi := isJimeng4xMultiImage res.userModel prompt
        match submitAndPoll up with
        | (Except.error e, tailEvs) =>
            (Except.error e, db1, GenEvent.quotaCheckEv :: tailEvs)
        | (Except.ok urls, tailEvs) =>
          let (_, db2) :=
            MemoryUsageDB.incrementUsage db1 sessionId today now
              ServiceType.image
          (Except.ok urls, db2,
           GenEvent.quotaCheckEv :: tailEvs ++ [GenEvent.incrementEv])
    else
      (Except.error (GenError.quotaExceeded check.current check.limit), db1,
       [GenEvent.quotaCheckEv])

/-! ## Upload pipeline retries (uploadImageBuffer in
src/src/lib/swagger-config.ts) -/

/-- Outcome of one `fetch` attempt: a completed HTTP response (with its
`ok` flag) or a thrown fetch error (with the flag the commit loop's
`isNetworkError` check computes from the message). -/
inductive FetchOutcome where
  | response (ok : Bool)
  | fetchError (network : Bool)
deriving DecidableEq, Repr

/-- The per-attempt `setTimeout(... , 30000)` abort deadline of the PUT
step (swagger-config.ts line 707). -/
def putAttemptTimeoutMs : Nat := 30000

/-- The per-attempt `setTimeout(... , 30000)` abort deadline of the commit
step (swagger-config.ts line 792). -/
def commitAttemptTimeoutMs : Nat := 30000

/-- `maxRetries` of the PUT loop (swagger-config.ts line 695). -/
def putMaxRetries : Nat := 3

/-- `maxCommitRetries` of the commit loop (swagger-config.ts line 763). -/
def commitMaxRetries : Nat := 3

/-- The PUT-bytes retry loop (swagger-config.ts lines 693-749), driven by
the oracle of per-attempt fetch outcomes.  Any completed response breaks
the loop (an HTTP error response is not retried, only checked afterwards);
a thrown fetch error retries after `attempt * 2000` ms until the third
attempt.  Returns the `ok` flag the loop ends with (or the thrown error),
the backoff delays slept, and the number of attempts made. -/
def putLoop (attempt : Nat) : List FetchOutcome →
    (Except String Bool) × List Nat × Nat
  | [] => (Except.error "put oracle exhausted", [], 0)
  | o :: rest =>
    match o with
    | FetchOutcome.response ok => (Except.ok ok, [], 1)
    | FetchOutcome.fetchError _ =>
      if putMaxRetries ≤ attempt then
        (Except.error "upload network request failed", [], 1)
      else
        match putLoop (attempt + 1) rest with
        | (r, ds, n) => (r, attempt * 2000 :: ds, n + 1)

/-- The PUT-bytes step including the post-loop `ok` check
(swagger-config.ts lines 751-754). -/
def uploadPut (outs : List FetchOutcome) :
    (Except String Unit) × List Nat × Nat :=
  match putLoop 1 outs with
  | (Except.ok true, ds, n) => (Except.ok (), ds, n)
  | (Except.ok false, ds, n) => (Except.error "upload http error", ds, n)
  | (Except.error e, ds, n) => (Except.error e, ds, n)

/-- The commit retry loop (swagger-config.ts lines 766-858).  Each
attempt first reads `new Date()` (the oracle `clocks`) and derives
`x-amz-date` and the SigV4 signature from it.  A 2xx response breaks; an
HTTP error response retries immediately (throwing on the third attempt);
a thrown fetch error retries after `attempt * 3000` ms when the message
matches the network-error list and `attempt * 2000` ms otherwise.
Returns the result, the backoff delays slept, and the `x-amz-date`
instants actually used, one per attempt. -/
def commitLoop (attempt : Nat) : List FetchOutcome → List Nat →
    (Except String Unit) × List Nat × List Nat
  | [], _ => (Except.error "commit oracle exhausted", [], [])
  | _, [] => (Except.error "commit clock oracle exhausted", [], [])
  | o :: rest, c :: crest =>
    match o with
    | FetchOutcome.response true => (Except.ok (), [], [c])
    | FetchOutcome.response false =>
      if commitMaxRetries ≤ attempt then
        (Except.error "commit http error", [], [c])
      else
        match commitLoop (attempt + 1) rest crest with
        | (r, ds, ts) => (r, ds, c :: ts)
    | FetchOutcome.fetchError network =>
      if commitMaxRetries ≤ attempt then
        (Except.error "commit network request failed", [], [c])
      else
        let d := attempt * (if network then 3000 else 2000)
        match commitLoop (attempt + 1) rest crest with
        | (r, ds, ts) => (r, d :: ds, c :: ts)

/-- The step structure of `uploadImageBuffer` (swagger-config.ts lines
590-888), with one event per upstream request: the token acquire and the
`ApplyImageUpload` request are single straight-line requests (no loop
encloses them), then the PUT loop and the commit loop run.  The oracles
fix the outcome of each request. -/
inductive UploadEvent where
  | getUploadTokenEv
  | applyImageUploadEv
  | putAttemptEv
  | commitAttemptEv
deriving DecidableEq, Repr

/-- `uploadImageBuffer` at the granularity of upstream requests. -/
def uploadImageBuffer (tokenOk applyOk : Bool)
    (putOuts commitOuts : List FetchOutcome) (clocks : List Nat) :
    (Except String Unit) × List UploadEvent :=
  if ¬ tokenOk then
    (Except.error "failed to acquire upload token", [UploadEvent.getUploadTokenEv])
  else if ¬ applyOk then
    (Except.error "ApplyImageUpload failed",
     [UploadEvent.getUploadTokenEv, UploadEvent.applyImageUploadEv])
  else
    match uploadPut putOuts with
    | (Except.error e, _, n) =>
        (Except.error e,
         [UploadEvent.getUploadTokenEv, UploadEvent.applyImageUploadEv]
           ++ List.replicate n UploadEvent.putAttemptEv)
    | (Except.ok _, _, n) =>
      match commitLoop 1 commitOuts clocks with
      | (r, _, ts) =>
        (r.map (fun _ => ()),
         [UploadEvent.getUploadTokenEv, UploadEvent.applyImageUploadEv]
           ++ List.replicate n UploadEvent.putAttemptEv
           ++ List.replicate ts.length UploadEvent.commitAttemptEv)

/-- The backoff the claim asserts for a network error on a given attempt
(attempt times 3 seconds), used to state the counterexample against the
PUT step's actual backoff. -/
def claimedNetworkBackoffMs (attempt : Nat) : Nat := attempt * 3000

/-- The backoff delays of the commit loop as the corrected retry policy
states them: a fetch error on attempt `a` (below the attempt cap) waits
`a * 3000` ms when it is a network error and `a * 2000` ms otherwise,
while an HTTP error response retries without waiting; used to compare the
loop translated from the source against the corrected policy. -/
def commitDelaysPolicy : Nat → List FetchOutcome → List Nat
  | _, [] => []
  | _, FetchOutcome.response true :: _ => []
  | a, FetchOutcome.response false :: rest =>
      if commitMaxRetries ≤ a then [] else commitDelaysPolicy (a + 1) rest
  | a, FetchOutcome.fetchError network :: rest =>
      if commitMaxRetries ≤ a then []
      else a * (if network then 3000 else 2000) :: commitDelaysPolicy (a + 1) rest

/-- The backoff delays of the PUT loop as the corrected retry policy
states them: every retried fetch error on attempt `a` — network errors
included — waits `a * 2000` ms; used to compare the loop translated from
the source against the corrected policy. -/
def putDelaysPolicy : Nat → List FetchOutcome → List Nat
  | _, [] => []
  | _, FetchOutcome.response _ :: _ => []
  | a, FetchOutcome.fetchError _ :: rest =>
      if putMaxRetries ≤ a then [] else a * 2000 :: putDelaysPolicy (a + 1) rest

/-! ## Concrete states used by counterexamples and witnesses -/

/-- A task already in the terminal status `completed`. -/
def taskCompleted0 : Task :=
  { id := 1, type := TaskType.image_generation, status := TaskStatus.completed,
    priority := 5, createdAt := 0, updatedAt := 0 }

/-- A store holding only `taskCompleted0`. -/
def stCompleted0 : TMState := { tasks := [(1, taskCompleted0)] }

/-- A task already in the terminal status `cancelled`. -/
def taskCancelled0 : Task :=
  { id := 1, type := TaskType.video_generation, status := TaskStatus.cancelled,
    priority := 10, createdAt := 0, updatedAt := 2 }

/-- A store holding only `taskCancelled0`, with no timer armed. -/
def stCancelled0 : TMState := { tasks := [(1, taskCancelled0)] }

/-- A store holding only `taskCancelled0` whose timeout timer is still
armed (the situation produced by cancelling a running task: `cancelTask`
transitions to `cancelled` without clearing the timer). -/
def stCancelledArmed0 : TMState :=
  { tasks := [(1, taskCancelled0)], taskTimeouts := [1] }

/-- A freshly created pending image task. -/
def taskPending0 : Task :=
  { id := 1, type := TaskType.image_generation, status := TaskStatus.pending,
    priority := 5, createdAt := 0, updatedAt := 0 }

/-- A store holding only `taskPending0`. -/
def stPending0 : TMState := { tasks := [(1, taskPending0)] }

/-- A small model-map instantiation: each region maps exactly its own
default model. -/
def mm0 : ModelMaps :=
  { cnMap := [("cn-default", "cn-code")], usMap := [("us-default", "us-code")],
    defaultCN := "cn-default", defaultUS := "us-default" }

/-- An empty quota ledger. -/
def emptyDB : MemoryUsageDB.DB := {}

/-- A ledger in which session `s` has exhausted today's image quota
(`image_count` equals the in-memory daily image limit). -/
def exhaustedDB : MemoryUsageDB.DB :=
  { data := [(MemoryUsageDB.usageKey "s" "2026-10-11",
      { session_id := "s", date := "2026-10-11", image_count := 50,
        created_at := 0, updated_at := 0 })] }

/-- An upstream oracle in which every request would succeed. -/
def happyOracle : UpstreamOracle :=
  { uploadResults := [Except.ok "uri1"], historyId := some "h1",
    pollResult := Except.ok { itemListLen := 4, urls := ["u1", "u2", "u3", "u4"] } }

/-- A store with one submitted async image-generation task. -/
def stTwoBase : TMState := (submitImageGenerationTask {} 0 1).2

/-- `stTwoBase` after additionally submitting an async video-generation
task, so an image task and a video task are pending together. -/
def stTwo : TMState := (submitVideoGenerationTask stTwoBase 1 2).2

/-- The pending image task of `stTwo`. -/
def taskImage0 : Task := (submitImageGenerationTask {} 0 1).1

/-- The pending video task of `stTwo`. -/
def taskVideo0 : Task := (submitVideoGenerationTask stTwoBase 1 2).1

/-! ## Helper lemmas -/

theorem lookupTask_replaceTask_self (l : List (Nat × Task)) (id : Nat)
    (t' : Task) (h : (lookupTask l id).isSome) :
    lookupTask (replaceTask l id t') id = some t' := by
  induction l with
  | nil => simp [lookupTask] at h
  | cons p rest ih =>
    obtain ⟨k, t⟩ := p
    by_cases hk : k = id
    · simp [lookupTask, replaceTask, hk]
    · simp only [lookupTask, replaceTask, if_neg hk] at h ⊢
      exact ih h

theorem updateTaskStatus_fst (st : TMState) (now taskId : Nat)
    (status : TaskStatus) (extra : UpdateExtra) (t : Task)
    (h : lookupTask st.tasks taskId = some t) :
    (TaskManager.updateTaskStatus st now taskId status extra).1 = true := by
  simp only [TaskManager.updateTaskStatus, h]
  split <;> rfl

theorem lookupTask_updateTaskStatus_self (st : TMState) (now taskId : Nat)
    (status : TaskStatus) (extra : UpdateExtra) (t : Task)
    (h : lookupTask st.tasks taskId = some t) :
    lookupTask (TaskManager.updateTaskStatus st now taskId status extra).2.tasks taskId
      = some (TaskManager.applyUpdate t now status extra) := by
  have hs : (lookupTask st.tasks taskId).isSome := by rw [h]; rfl
  simp only [TaskManager.updateTaskStatus, h]
  split <;> exact lookupTask_replaceTask_self st.tasks taskId _ hs

theorem applyUpdate_status (t : Task) (now : Nat) (status : TaskStatus)
    (extra : UpdateExtra) :
    (TaskManager.applyUpdate t now status extra).status = status := by
  obtain ⟨r, e, p⟩ := extra
  cases r <;> cases e <;> cases p <;>
    simp only [TaskManager.applyUpdate] <;> split_ifs <;> rfl

theorem applyUpdate_result (t : Task) (now : Nat) (status : TaskStatus)
    (extra : UpdateExtra) :
    (TaskManager.applyUpdate t now status extra).result
      = (match extra.result with | some r => some r | none => t.result) := by
  obtain ⟨r, e, p⟩ := extra
  cases r <;> cases e <;> cases p <;>
    simp only [TaskManager.applyUpdate] <;> split_ifs <;> rfl

theorem applyUpdate_progress (t : Task) (now : Nat) (status : TaskStatus)
    (extra : UpdateExtra) :
    (TaskManager.applyUpdate t now status extra).progress
      = (match extra.progress with | some p => some p | none => t.progress) := by
  obtain ⟨r, e, p⟩ := extra
  cases r <;> cases e <;> cases p <;>
    simp only [TaskManager.applyUpdate] <;> split_ifs <;> rfl

theorem setTaskTimeout_tasks (st : TMState) (id : Nat) :
    (TaskManager.setTaskTimeout st id).tasks = st.tasks := by
  unfold TaskManager.setTaskTimeout
  split <;> rfl

/-! ## C1 — terminal states and the task store -/

/-- C1 counterexample: `updateTaskStatus` does not reject a new status for
a terminal task (a completed task is moved back to running and the call
reports success), and firing the still-armed timeout of a cancelled task
transitions it to failed. -/
theorem updateTaskStatus_terminal_transitions :
    (TaskManager.updateTaskStatus stCompleted0 7 1 TaskStatus.running {}).1 = true ∧
    (lookupTask (TaskManager.updateTaskStatus stCompleted0 7 1 TaskStatus.running {}).2.tasks 1).map
        Task.status = some TaskStatus.running ∧
    (lookupTask (TaskManager.fireTimeout stCancelledArmed0 9 1).tasks 1).map
        Task.status = some TaskStatus.failed := by
  decide

/-- C1 (amended): `updateTaskStatus` validates nothing — it applies any
requested status to any existing task and returns true; transitions to
completed or failed clear the armed timeout, so a task that reached
completed or failed is never later failed by its timer (an unarmed timer
firing is a no-op), but cancellation does not clear the timer, and an
armed timer expiring on a cancelled task transitions it to failed. -/
theorem taskStore_transition_characterization :
    (∀ (st : TMState) (now taskId : Nat) (status : TaskStatus)
        (extra : UpdateExtra) (t : Task),
        lookupTask st.tasks taskId = some t →
        (TaskManager.updateTaskStatus st now taskId status extra).1 = true ∧
        (lookupTask (TaskManager.updateTaskStatus st now taskId status extra).2.tasks taskId).map
            Task.status = some status) ∧
    (∀ (st : TMState) (now taskId : Nat) (status : TaskStatus)
        (extra : UpdateExtra),
        (status = TaskStatus.completed ∨ status = TaskStatus.failed) →
        taskId ∉ (TaskManager.updateTaskStatus st now taskId status extra).2.taskTimeouts ∨
          (TaskManager.updateTaskStatus st now taskId status extra).2 = st) ∧
    (∀ (st : TMState) (now taskId : Nat), taskId ∉ st.taskTimeouts →
        TaskManager.fireTimeout st now taskId = st) ∧
    (∀ (st : TMState) (now taskId : Nat) (t : Task),
        lookupTask st.tasks taskId = some t → t.status = TaskStatus.cancelled →
        taskId ∈ st.taskTimeouts →
        (lookupTask (TaskManager.fireTimeout st now taskId).tasks taskId).map
            Task.status = some TaskStatus.failed) := by
  refine ⟨?_, ?_, ?_, ?_⟩
  · intro st now taskId status extra t h
    refine ⟨updateTaskStatus_fst st now taskId status extra t h, ?_⟩
    rw [lookupTask_updateTaskStatus_self st now taskId status extra t h]
    simp [applyUpdate_status]
  · intro st now taskId status extra hterm
    match hlook : lookupTask st.tasks taskId with
    | none =>
      right
      simp only [TaskManager.updateTaskStatus, hlook]
    | some t =>
      left
      simp only [TaskManager.updateTaskStatus, hlook]
      rw [if_pos hterm]
      simp [List.mem_filter]
  · intro st now taskId h
    unfold TaskManager.fireTimeout
    rw [if_neg h]
  · intro st now taskId t h _hcanc hmem
    unfold TaskManager.fireTimeout
    rw [if_pos hmem]
    rw [lookupTask_updateTaskStatus_self st now taskId TaskStatus.failed _ t h]
    simp [applyUpdate_status]

/-- C1 witness: the amended characterization applied to concrete stores. -/
theorem taskStore_transition_characterization_witness :
    ((TaskManager.updateTaskStatus stPending0 3 1 TaskStatus.running {}).1 = true ∧
      (lookupTask (TaskManager.updateTaskStatus stPending0 3 1 TaskStatus.running {}).2.tasks 1).map
          Task.status = some TaskStatus.running) ∧
    (lookupTask (TaskManager.fireTimeout stCancelledArmed0 11 1).tasks 1).map
        Task.status = some TaskStatus.failed := by
  refine ⟨taskStore_transition_characterization.1 stPending0 3 1
    TaskStatus.running {} taskPending0 (by decide), ?_⟩
  exact taskStore_transition_characterization.2.2.2 stCancelledArmed0 11 1
    taskCancelled0 (by decide) (by decide) (by decide)

/-! ## C2 — completed tasks, progress and result -/

/-- C2 counterexample: running the worker success path on a fresh pending
task reaches status completed with stored progress 90, not 100 (the
completed transition carries a result but no progress, and the last
progress write is the fixed 90). -/
theorem completed_progress_ninety :
    (lookupTask (TaskProcessor.executeTaskSuccess stPending0 3 1 [] ["url1"]).tasks 1).map
        Task.status = some TaskStatus.completed ∧
    (lookupTask (TaskProcessor.executeTaskSuccess stPending0 3 1 [] ["url1"]).tasks 1).map
        Task.progress = some (some 90) ∧
    some (some (90 : Nat)) ≠ some (some (100 : Nat)) := by
  decide

/-- C2 (amended): on the worker success path (with the poll callback
never invoked, as wired in src), the task ends completed with its result
present and its progress equal to 90 — progress is never set to 100. -/
theorem executeTask_success_final_state (st : TMState) (now taskId : Nat)
    (r : List String) (t : Task) (h : lookupTask st.tasks taskId = some t) :
    (lookupTask (TaskProcessor.executeTaskSuccess st now taskId [] r).tasks taskId).map
        Task.status = some TaskStatus.completed ∧
    (lookupTask (TaskProcessor.executeTaskSuccess st now taskId [] r).tasks taskId).map
        Task.result = some (some r) ∧
    (lookupTask (TaskProcessor.executeTaskSuccess st now taskId [] r).tasks taskId).map
        Task.progress = some (some 90) := by
  have h1 := lookupTask_updateTaskStatus_self st now taskId TaskStatus.running {} t h
  have h2 : lookupTask
      (TaskManager.setTaskTimeout
        (TaskManager.updateTaskStatus st now taskId TaskStatus.running {}).2 taskId).tasks taskId
      = some (TaskManager.applyUpdate t now TaskStatus.running {}) := by
    rw [setTaskTimeout_tasks]; exact h1
  have h3 := lookupTask_updateTaskStatus_self _ now taskId TaskStatus.running
    { progress := some 10 } _ h2
  have h5 := lookupTask_updateTaskStatus_self _ now taskId TaskStatus.running
    { progress := some 90 } _ h3
  have h6 := lookupTask_updateTaskStatus_self _ now taskId TaskStatus.completed
    { result := some r } _ h5
  simp only [TaskProcessor.executeTaskSuccess, TaskProcessor.applyCallbacks, List.foldl_nil]
  rw [h6]
  simp [applyUpdate_status, applyUpdate_result, applyUpdate_progress]

/-- C2 witness: the amended statement at a concrete store. -/
theorem executeTask_success_final_state_witness :
    (lookupTask (TaskProcessor.executeTaskSuccess stPending0 5 1 [] ["a"]).tasks 1).map
        Task.status = some TaskStatus.completed ∧
    (lookupTask (TaskProcessor.executeTaskSuccess stPending0 5 1 [] ["a"]).tasks 1).map
        Task.result = some (some ["a"]) ∧
    (lookupTask (TaskProcessor.executeTaskSuccess stPending0 5 1 [] ["a"]).tasks 1).map
        Task.progress = some (some 90) :=
  executeTask_success_final_state stPending0 5 1 ["a"] taskPending0 (by decide)

/-! ## C5 — daily cap values -/

/-- C5 counterexample: on a fresh day the in-memory ledger consulted by
the generation controllers reports an image limit of 50, not 10. -/
theorem memory_limits_not_ten :
    (MemoryUsageDB.checkUsageLimit emptyDB "s" "2026-10-11" 0 ServiceType.image).1.limit = 50 ∧
    (50 : Nat) ≠ 10 := by
  decide

/-- C5 (amended): the ledger the controllers consult (the in-memory
variant) caps image=50, video=10, avatar=5, and reports those limits for
a fresh session; the 10/2/1 defaults exist only in the relational ledger
variant and in the middleware constant. -/
theorem daily_limits_values :
    MemoryUsageDB.DAILY_LIMITS ServiceType.image = 50 ∧
    MemoryUsageDB.DAILY_LIMITS ServiceType.video = 10 ∧
    MemoryUsageDB.DAILY_LIMITS ServiceType.avatar = 5 ∧
    (MemoryUsageDB.checkUsageLimit emptyDB "s" "2026-10-11" 0 ServiceType.image).1.limit = 50 ∧
    (MemoryUsageDB.checkUsageLimit emptyDB "s" "2026-10-11" 0 ServiceType.video).1.limit = 10 ∧
    (MemoryUsageDB.checkUsageLimit emptyDB "s" "2026-10-11" 0 ServiceType.avatar).1.limit = 5 ∧
    SessionUsageDB.DAILY_LIMITS ServiceType.image = 10 ∧
    SessionUsageDB.DAILY_LIMITS ServiceType.video = 2 ∧
    SessionUsageDB.DAILY_LIMITS ServiceType.avatar = 1 ∧
    middlewareDailyLimits ServiceType.image = 10 ∧
    middlewareDailyLimits ServiceType.video = 2 ∧
    middlewareDailyLimits ServiceType.avatar = 1 := by
  decide

/-! ## C6 — model resolution by region -/

/-- C6 counterexample: in the domestic (CN) region a model that is not
supported there and is not the default of another region does not fail
with an unsupported-model error — it is silently replaced by the CN
default. -/
theorem getModel_cn_fallback_no_error :
    lookupStr mm0.cnMap "other-model" = none ∧
    "other-model" ≠ mm0.defaultUS ∧
    getModel mm0 "other-model" false
      = Except.ok { model := some "cn-code", userModel := "cn-default" } := by
  decide

/-- C6 (amended): only the international region rejects unsupported
models, and there only when the requested model is not the domestic
default (in which case the US default is substituted); in the CN region
every unsupported model silently resolves to the CN default, and a
supported model always resolves to itself. -/
theorem getModel_characterization (mm : ModelMaps) (model : String) :
    ((lookupStr mm.usMap model).isNone → model = mm.defaultCN →
        getModel mm model true
          = Except.ok { model := lookupStr mm.usMap mm.defaultUS,
                        userModel := mm.defaultUS }) ∧
    ((lookupStr mm.usMap model).isNone → model ≠ mm.defaultCN →
        getModel mm model true
          = Except.error "unsupported model in international region") ∧
    ((lookupStr mm.usMap model).isSome →
        getModel mm model true
          = Except.ok { model := lookupStr mm.usMap model, userModel := model }) ∧
    ((lookupStr mm.cnMap model).isNone →
        getModel mm model false
          = Except.ok { model := lookupStr mm.cnMap mm.defaultCN,
                        userModel := mm.defaultCN }) ∧
    ((lookupStr mm.cnMap model).isSome →
        getModel mm model false
          = Except.ok { model := lookupStr mm.cnMap model, userModel := model }) := by
  refine ⟨?_, ?_, ?_, ?_, ?_⟩
  · intro hn he
    subst he
    rw [Option.isNone_iff_eq_none] at hn
    simp [getModel, hn]
  · intro hn he
    rw [Option.isNone_iff_eq_none] at hn
    simp [getModel, hn, he]
  · intro hs
    obtain ⟨v, hv⟩ := Option.isSome_iff_exists.mp hs
    simp [getModel, hv]
  · intro hn
    rw [Option.isNone_iff_eq_none] at hn
    simp [getModel, hn]
  · intro hs
    obtain ⟨v, hv⟩ := Option.isSome_iff_exists.mp hs
    simp [getModel, hv]

/-- C6 witness: the amended characterization at the concrete maps. -/
theorem getModel_characterization_witness :
    getModel mm0 "zzz" true = Except.error "unsupported model in international region" ∧
    getModel mm0 "zzz" false = Except.ok { model := some "cn-code", userModel := "cn-default" } := by
  refine ⟨(getModel_characterization mm0 "zzz").2.1 (by decide) (by decide), ?_⟩
  exact ((getModel_characterization mm0 "zzz").2.2.2.1 (by decide)).trans (by decide)

/-! ## C7 — cancellation semantics -/

/-- C7 counterexample: cancelling an already-cancelled task does not
report that nothing changed — `cancelTask` re-applies the cancelled
status and returns true. -/
theorem cancelTask_cancelled_returns_true :
    (lookupTask stCancelled0.tasks 1).map Task.status = some TaskStatus.cancelled ∧
    (TaskManager.cancelTask stCancelled0 9 1).1 = true := by
  decide

/-- C7 (amended): `cancelTask` returns false exactly for missing,
completed or failed tasks; for any other existing task — pending,
running, or already cancelled — it applies the cancelled status and
returns true, so its boolean reports that an update was applied, not
that the status changed. -/
theorem cancelTask_characterization (st : TMState) (now taskId : Nat) :
    (lookupTask st.tasks taskId = none →
        TaskManager.cancelTask st now taskId = (false, st)) ∧
    (∀ t, lookupTask st.tasks taskId = some t →
        (t.status = TaskStatus.completed ∨ t.status = TaskStatus.failed) →
        TaskManager.cancelTask st now taskId = (false, st)) ∧
    (∀ t, lookupTask st.tasks taskId = some t →
        t.status ≠ TaskStatus.completed → t.status ≠ TaskStatus.failed →
        (TaskManager.cancelTask st now taskId).1 = true ∧
        (lookupTask (TaskManager.cancelTask st now taskId).2.tasks taskId).map
            Task.status = some TaskStatus.cancelled) := by
  refine ⟨?_, ?_, ?_⟩
  · intro h
    simp only [TaskManager.cancelTask, h]
  · intro t h hterm
    simp only [TaskManager.cancelTask, h]
    rw [if_pos hterm]
  · intro t h hc hf
    have hneg : ¬ (t.status = TaskStatus.completed ∨ t.status = TaskStatus.failed) := by
      rintro (hx | hx)
      · exact hc hx
      · exact hf hx
    constructor
    · simp only [TaskManager.cancelTask, h]
      rw [if_neg hneg]
      exact updateTaskStatus_fst st now taskId TaskStatus.cancelled {} t h
    · simp only [TaskManager.cancelTask, h]
      rw [if_neg hneg]
      rw [lookupTask_updateTaskStatus_self st now taskId TaskStatus.cancelled {} t h]
      simp [applyUpdate_status]

/-- C7 witness: the amended characterization cancelling a pending task. -/
theorem cancelTask_characterization_witness :
    (TaskManager.cancelTask stPending0 4 1).1 = true :=
  ((cancelTask_characterization stPending0 4 1).2.2 taskPending0
    (by decide) (by decide) (by decide)).1

/-! ## C8 — progress monotonicity -/

/-- C8 counterexample: a single poll-callback value of 95 — admissible
under the SmartPoller's 95% cap — followed by the worker's fixed
pre-completion write of 90 makes the stored progress sequence
10, 95, 90, which is not monotone. -/
theorem progress_not_monotone_at_95 :
    TaskProcessor.pollerCallbackAdmissible [95] ∧
    ¬ List.Chain' (fun a b => a ≤ b) (TaskProcessor.workerProgressWrites [95]) := by
  constructor
  · intro c hc
    simp only [List.mem_singleton] at hc
    subst hc
    decide
  · intro hmono
    rw [show TaskProcessor.workerProgressWrites [95] = [10, 95, 90] from rfl] at hmono
    rw [List.chain'_cons, List.chain'_cons] at hmono
    exact absurd hmono.2.1 (by omega)

/-- C8 (amended): progress writes within a run are monotone only when
every poll-callback value lies between the worker's fixed initial write
of 10 and its fixed final write of 90 and the callback sequence itself
is non-decreasing; the callback cap is 95, so values in (90, 95] break
monotonicity at the final write (and values below 10 break it at the
start). -/
theorem progress_monotone_bounded_callbacks (cs : List Nat)
    (hchain : List.Chain' (fun a b => a ≤ b) cs)
    (hbound : ∀ c ∈ cs, 10 ≤ c ∧ c ≤ 90) :
    List.Chain' (fun a b => a ≤ b) (TaskProcessor.workerProgressWrites cs) := by
  unfold TaskProcessor.workerProgressWrites
  rw [List.chain'_append]
  refine ⟨?_, by simp, ?_⟩
  · rw [List.chain'_cons']
    refine ⟨?_, hchain⟩
    intro y hy
    cases cs with
    | nil => simp at hy
    | cons c cs2 =>
      simp only [List.head?_cons, Option.mem_def, Option.some.injEq] at hy
      subst hy
      exact (hbound c (List.mem_cons_self c cs2)).1
  · intro x hx y hy
    simp only [List.head?_cons, Option.mem_def, Option.some.injEq] at hy
    subst hy
    obtain ⟨hne, hxl⟩ := List.mem_getLast?_eq_getLast hx
    have hmem := List.getLast_mem hne
    rw [← hxl] at hmem
    rcases List.mem_cons.mp hmem with h10 | hcs
    · omega
    · exact (hbound x hcs).2

/-- C8 witness: the amended statement at a concrete bounded monotone
callback sequence. -/
theorem progress_monotone_bounded_callbacks_witness :
    List.Chain' (fun a b => a ≤ b) (TaskProcessor.workerProgressWrites [30, 50, 90]) :=
  progress_monotone_bounded_callbacks [30, 50, 90]
    (by norm_num [List.chain'_cons]) (by decide)

/-! ## C4 — increment semantics of the quota ledger -/

theorem lookupUsage_append_self (l : List (String × SessionUsage)) (k : String)
    (u : SessionUsage) (h : MemoryUsageDB.lookupUsage l k = none) :
    MemoryUsageDB.lookupUsage (l ++ [(k, u)]) k = some u := by
  induction l with
  | nil => simp [MemoryUsageDB.lookupUsage]
  | cons p rest ih =>
    obtain ⟨k0, u0⟩ := p
    by_cases hk : k0 = k
    · simp [MemoryUsageDB.lookupUsage, hk] at h
    · simp only [List.cons_append, MemoryUsageDB.lookupUsage, if_neg hk] at h ⊢
      exact ih h

theorem lookupUsage_replaceUsage_self (l : List (String × SessionUsage))
    (k : String) (u' : SessionUsage)
    (h : (MemoryUsageDB.lookupUsage l k).isSome) :
    MemoryUsageDB.lookupUsage (MemoryUsageDB.replaceUsage l k u') k = some u' := by
  induction l with
  | nil => simp [MemoryUsageDB.lookupUsage] at h
  | cons p rest ih =>
    obtain ⟨k0, u0⟩ := p
    by_cases hk : k0 = k
    · simp [MemoryUsageDB.lookupUsage, MemoryUsageDB.replaceUsage, hk]
    · simp only [MemoryUsageDB.lookupUsage, MemoryUsageDB.replaceUsage,
        if_neg hk] at h ⊢
      exact ih h

theorem getCurrentCount_freshUsage (sessionId today : String) (now : Nat)
    (ty : ServiceType) :
    MemoryUsageDB.getCurrentCount (MemoryUsageDB.freshUsage sessionId today now) ty = 0 := by
  cases ty <;> rfl

theorem getCurrentCount_bumpCount_self (u : SessionUsage) (ty : ServiceType)
    (now : Nat) :
    MemoryUsageDB.getCurrentCount (MemoryUsageDB.bumpCount u ty now) ty
      = MemoryUsageDB.getCurrentCount u ty + 1 := by
  cases ty <;> rfl

theorem getCurrentCount_bumpCount_other (u : SessionUsage) (ty ty2 : ServiceType)
    (now : Nat) (h : ty2 ≠ ty) :
    MemoryUsageDB.getCurrentCount (MemoryUsageDB.bumpCount u ty now) ty2
      = MemoryUsageDB.getCurrentCount u ty2 := by
  cases ty <;> cases ty2 <;> first
    | rfl
    | exact absurd rfl h

theorem bumpCount_updated_at (u : SessionUsage) (ty : ServiceType) (now : Nat) :
    (MemoryUsageDB.bumpCount u ty now).updated_at = now := by
  cases ty <;> rfl

/-- C4: `incrementUsage` fails exactly when the current count has reached
the daily limit, in which case the ledger is unchanged; otherwise it adds
exactly 1 to that service's count, leaves the other counts unchanged,
and refreshes `updated_at`, so an increment followed by a read observes
exactly +1. -/
theorem incrementUsage_spec (db : MemoryUsageDB.DB) (sessionId today : String)
    (now : Nat) (ty : ServiceType) :
    ((∃ e, (MemoryUsageDB.incrementUsage db sessionId today now ty).1 = Except.error e) ↔
        MemoryUsageDB.DAILY_LIMITS ty ≤ MemoryUsageDB.currentCountOf db sessionId today ty) ∧
    (MemoryUsageDB.DAILY_LIMITS ty ≤ MemoryUsageDB.currentCountOf db sessionId today ty →
        (MemoryUsageDB.incrementUsage db sessionId today now ty).2 = db) ∧
    (MemoryUsageDB.currentCountOf db sessionId today ty < MemoryUsageDB.DAILY_LIMITS ty →
        ∃ u, MemoryUsageDB.getUsage
              (MemoryUsageDB.incrementUsage db sessionId today now ty).2 sessionId today
              = some u ∧
          MemoryUsageDB.getCurrentCount u ty
            = MemoryUsageDB.currentCountOf db sessionId today ty + 1 ∧
          (∀ ty2, ty2 ≠ ty → MemoryUsageDB.getCurrentCount u ty2
            = MemoryUsageDB.currentCountOf db sessionId today ty2) ∧
          u.updated_at = now) := by
  rcases hlook : MemoryUsageDB.lookupUsage db.data (MemoryUsageDB.usageKey sessionId today)
    with _ | u
  · -- no row yet: the current count is 0, the check creates a fresh row
    have hcur : ∀ ty2, MemoryUsageDB.currentCountOf db sessionId today ty2 = 0 := by
      intro ty2
      simp [MemoryUsageDB.currentCountOf, MemoryUsageDB.getUsage, hlook]
    have hlt : MemoryUsageDB.getCurrentCount
        (MemoryUsageDB.freshUsage sessionId today now) ty < MemoryUsageDB.DAILY_LIMITS ty := by
      rw [getCurrentCount_freshUsage]
      cases ty <;> decide
    have happ := lookupUsage_append_self db.data
      (MemoryUsageDB.usageKey sessionId today)
      (MemoryUsageDB.freshUsage sessionId today now) hlook
    have hstep : MemoryUsageDB.incrementUsage db sessionId today now ty
        = (Except.ok (),
           { data := MemoryUsageDB.replaceUsage
               (db.data ++ [(MemoryUsageDB.usageKey sessionId today,
                 MemoryUsageDB.freshUsage sessionId today now)])
               (MemoryUsageDB.usageKey sessionId today)
               (MemoryUsageDB.bumpCount
                 (MemoryUsageDB.freshUsage sessionId today now) ty now) }) := by
      unfold MemoryUsageDB.incrementUsage MemoryUsageDB.checkUsageLimit
      simp only [hlook, happ, hlt]
      simp
    refine ⟨?_, ?_, ?_⟩
    · rw [hstep, hcur ty]
      constructor
      · rintro ⟨e, he⟩
        exact absurd he (by simp)
      · intro hle
        have := MemoryUsageDB.DAILY_LIMITS ty
        exact absurd hle (by cases ty <;> decide)
    · intro hle
      rw [hcur ty] at hle
      exact absurd hle (by cases ty <;> decide)
    · intro _
      refine ⟨MemoryUsageDB.bumpCount (MemoryUsageDB.freshUsage sessionId today now) ty now, ?_, ?_, ?_, ?_⟩
      · rw [hstep]
        exact lookupUsage_replaceUsage_self _ _ _ (by rw [happ]; rfl)
      · rw [getCurrentCount_bumpCount_self, getCurrentCount_freshUsage, hcur ty]
      · intro ty2 hne
        rw [getCurrentCount_bumpCount_other _ _ _ _ hne,
          getCurrentCount_freshUsage, hcur ty2]
      · exact bumpCount_updated_at _ _ _
  · -- a row exists: the check mutates nothing
    have hcur : ∀ ty2, MemoryUsageDB.currentCountOf db sessionId today ty2
        = MemoryUsageDB.getCurrentCount u ty2 := by
      intro ty2
      simp [MemoryUsageDB.currentCountOf, MemoryUsageDB.getUsage, hlook]
    by_cases hallow : MemoryUsageDB.getCurrentCount u ty < MemoryUsageDB.DAILY_LIMITS ty
    · have hstep : MemoryUsageDB.incrementUsage db sessionId today now ty
          = (Except.ok (),
             { data := MemoryUsageDB.replaceUsage db.data
                 (MemoryUsageDB.usageKey sessionId today)
                 (MemoryUsageDB.bumpCount u ty now) }) := by
        unfold MemoryUsageDB.incrementUsage MemoryUsageDB.checkUsageLimit
        simp only [hlook, hallow]
        simp
      refine ⟨?_, ?_, ?_⟩
      · rw [hstep, hcur ty]
        constructor
        · rintro ⟨e, he⟩
          exact absurd he (by simp)
        · intro hle
          omega
      · intro hle
        rw [hcur ty] at hle
        omega
      · intro _
        refine ⟨MemoryUsageDB.bumpCount u ty now, ?_, ?_, ?_, ?_⟩
        · rw [hstep]
          exact lookupUsage_replaceUsage_self _ _ _ (by rw [hlook]; rfl)
        · rw [getCurrentCount_bumpCount_self, hcur ty]
        · intro ty2 hne
          rw [getCurrentCount_bumpCount_other _ _ _ _ hne, hcur ty2]
        · exact bumpCount_updated_at _ _ _
    · have hstep : MemoryUsageDB.incrementUsage db sessionId today now ty
          = (Except.error "Daily limit exceeded", db) := by
        unfold MemoryUsageDB.incrementUsage MemoryUsageDB.checkUsageLimit
        simp only [hlook, hallow]
        simp
      refine ⟨?_, ?_, ?_⟩
      · rw [hstep, hcur ty]
        constructor
        · intro _
          omega
        · intro _
          exact ⟨"Daily limit exceeded", rfl⟩
      · intro _
        rw [hstep]
      · intro hlt
        rw [hcur ty] at hlt
        omega

/-- C4 witness: incrementing a fresh ledger stores exactly one image use
with the update instant, observed by a read. -/
theorem incrementUsage_spec_witness :
    ∃ u, MemoryUsageDB.getUsage
          (MemoryUsageDB.incrementUsage emptyDB "s" "2026-10-11" 7 ServiceType.image).2
          "s" "2026-10-11" = some u ∧
      MemoryUsageDB.getCurrentCount u ServiceType.image
        = MemoryUsageDB.currentCountOf emptyDB "s" "2026-10-11" ServiceType.image + 1 ∧
      (∀ ty2, ty2 ≠ ServiceType.image → MemoryUsageDB.getCurrentCount u ty2
        = MemoryUsageDB.currentCountOf emptyDB "s" "2026-10-11" ty2) ∧
      u.updated_at = 7 :=
  (incrementUsage_spec emptyDB "s" "2026-10-11" 7 ServiceType.image).2.2 (by decide)

/-! ## C3 — quota denial contacts no upstream -/

theorem checkUsageLimit_allowed (db : MemoryUsageDB.DB) (sessionId today : String)
    (now : Nat) (ty : ServiceType) :
    (MemoryUsageDB.checkUsageLimit db sessionId today now ty).1.allowed
      = decide (MemoryUsageDB.currentCountOf db sessionId today ty
          < MemoryUsageDB.DAILY_LIMITS ty) := by
  rcases hlook : MemoryUsageDB.lookupUsage db.data (MemoryUsageDB.usageKey sessionId today)
    with _ | u
  · unfold MemoryUsageDB.checkUsageLimit
    simp [hlook, MemoryUsageDB.currentCountOf, MemoryUsageDB.getUsage,
      getCurrentCount_freshUsage]
  · unfold MemoryUsageDB.checkUsageLimit
    simp [hlook, MemoryUsageDB.currentCountOf, MemoryUsageDB.getUsage]

theorem checkUsageLimit_current (db : MemoryUsageDB.DB) (sessionId today : String)
    (now : Nat) (ty : ServiceType) :
    (MemoryUsageDB.checkUsageLimit db sessionId today now ty).1.current
      = MemoryUsageDB.currentCountOf db sessionId today ty := by
  rcases hlook : MemoryUsageDB.lookupUsage db.data (MemoryUsageDB.usageKey sessionId today)
    with _ | u
  · unfold MemoryUsageDB.checkUsageLimit
    simp [hlook, MemoryUsageDB.currentCountOf, MemoryUsageDB.getUsage,
      getCurrentCount_freshUsage]
  · unfold MemoryUsageDB.checkUsageLimit
    simp [hlook, MemoryUsageDB.currentCountOf, MemoryUsageDB.getUsage]

theorem checkUsageLimit_limit_val (db : MemoryUsageDB.DB) (sessionId today : String)
    (now : Nat) (ty : ServiceType) :
    (MemoryUsageDB.checkUsageLimit db sessionId today now ty).1.limit
      = MemoryUsageDB.DAILY_LIMITS ty := by
  rcases hlook : MemoryUsageDB.lookupUsage db.data (MemoryUsageDB.usageKey sessionId today)
    with _ | u
  · unfold MemoryUsageDB.checkUsageLimit
    simp [hlook]
  · unfold MemoryUsageDB.checkUsageLimit
    simp [hlook]

/-- C3: when the session's image count for today has reached the daily
limit, both generation entry points fail with the quota-exceeded error
after the quota check, and the event trace is exactly the quota check —
no upload, no generate submit, no poll, and no increment happens. -/
theorem quota_denied_no_upstream (mm : ModelMaps) (model prompt : String)
    (images : List String) (isInternational : Bool) (db : MemoryUsageDB.DB)
    (sessionId today : String) (now : Nat) (up : UpstreamOracle)
    (himg : images.length ≠ 0)
    (hmodel : ∃ res, getModel mm model isInternational = Except.ok res)
    (hfull : MemoryUsageDB.DAILY_LIMITS ServiceType.image ≤
      MemoryUsageDB.currentCountOf db sessionId today ServiceType.image) :
    ((generateImages mm model prompt isInternational db sessionId today now up).1
        = Except.error (GenError.quotaExceeded
            (MemoryUsageDB.currentCountOf db sessionId today ServiceType.image)
            (MemoryUsageDB.DAILY_LIMITS ServiceType.image)) ∧
      (generateImages mm model prompt isInternational db sessionId today now up).2.2
        = [GenEvent.quotaCheckEv]) ∧
    ((generateImageComposition mm model images isInternational db sessionId today now up).1
        = Except.error (GenError.quotaExceeded
            (MemoryUsageDB.currentCountOf db sessionId today ServiceType.image)
            (MemoryUsageDB.DAILY_LIMITS ServiceType.image)) ∧
      (generateImageComposition mm model images isInternational db sessionId today now up).2.2
        = [GenEvent.quotaCheckEv]) := by
  obtain ⟨res, hres⟩ := hmodel
  rcases hcheck : MemoryUsageDB.checkUsageLimit db sessionId today now ServiceType.image
    with ⟨chk, db1⟩
  have hall : chk.allowed = false := by
    have h : chk.allowed = decide (MemoryUsageDB.currentCountOf db sessionId today
        ServiceType.image < MemoryUsageDB.DAILY_LIMITS ServiceType.image) := by
      have h0 := checkUsageLimit_allowed db sessionId today now ServiceType.image
      rw [hcheck] at h0
      exact h0
    rw [h, decide_eq_false_iff_not]
    omega
  have hcurq : chk.current = MemoryUsageDB.currentCountOf db sessionId today ServiceType.image := by
    have h := checkUsageLimit_current db sessionId today now ServiceType.image
    rw [hcheck] at h
    exact h
  have hlim : chk.limit = MemoryUsageDB.DAILY_LIMITS ServiceType.image := by
    have h := checkUsageLimit_limit_val db sessionId today now ServiceType.image
    rw [hcheck] at h
    exact h
  constructor
  · unfold generateImages
    simp only [hres, hcheck, hall]
    simp [hcurq, hlim]
  · unfold generateImageComposition
    rw [if_neg himg]
    simp only [hres, hcheck, hall]
    simp [hcurq, hlim]

/-- C3 witness: a session with 50 image uses today is denied by both
entry points without any upstream event, even with a fully successful
upstream oracle available. -/
theorem quota_denied_no_upstream_witness :
    ((generateImages mm0 "cn-default" "sunset" false exhaustedDB "s" "2026-10-11" 0 happyOracle).1
        = Except.error (GenError.quotaExceeded 50 50) ∧
      (generateImages mm0 "cn-default" "sunset" false exhaustedDB "s" "2026-10-11" 0 happyOracle).2.2
        = [GenEvent.quotaCheckEv]) ∧
    ((generateImageComposition mm0 "cn-default" ["img"] false exhaustedDB "s" "2026-10-11" 0 happyOracle).1
        = Except.error (GenError.quotaExceeded 50 50) ∧
      (generateImageComposition mm0 "cn-default" ["img"] false exhaustedDB "s" "2026-10-11" 0 happyOracle).2.2
        = [GenEvent.quotaCheckEv]) := by
  have h := quota_denied_no_upstream mm0 "cn-default" "sunset" ["img"] false
    exhaustedDB "s" "2026-10-11" 0 happyOracle (by decide)
    ⟨{ model := some "cn-code", userModel := "cn-default" }, by decide⟩ (by decide)
  refine ⟨⟨h.1.1.trans (by decide), h.1.2⟩, ⟨h.2.1.trans (by decide), h.2.2⟩⟩

/-! ## C10 — video priority and admission order -/

theorem mem_insertByPriorityDesc (t x : Task) (l : List Task) :
    x ∈ TaskManager.insertByPriorityDesc t l ↔ x = t ∨ x ∈ l := by
  induction l with
  | nil => simp [TaskManager.insertByPriorityDesc]
  | cons hd rest ih =>
    unfold TaskManager.insertByPriorityDesc
    by_cases hc : t.priority < hd.priority
    · rw [if_pos hc]
      simp only [List.mem_cons, ih]
      tauto
    · rw [if_neg hc]
      simp only [List.mem_cons]

theorem pairwise_insertByPriorityDesc (t : Task) (l : List Task)
    (h : l.Pairwise (fun a b => b.priority ≤ a.priority)) :
    (TaskManager.insertByPriorityDesc t l).Pairwise
      (fun a b => b.priority ≤ a.priority) := by
  induction l with
  | nil => simp [TaskManager.insertByPriorityDesc]
  | cons hd rest ih =>
    rw [List.pairwise_cons] at h
    obtain ⟨hhd, hrest⟩ := h
    unfold TaskManager.insertByPriorityDesc
    by_cases hc : t.priority < hd.priority
    · rw [if_pos hc]
      rw [List.pairwise_cons]
      constructor
      · intro b hb
        rcases (mem_insertByPriorityDesc t b rest).mp hb with rfl | hbr
        · omega
        · exact hhd b hbr
      · exact ih hrest
    · rw [if_neg hc]
      rw [List.pairwise_cons]
      constructor
      · intro b hb
        rcases List.mem_cons.mp hb with rfl | hbr
        · omega
        · have := hhd b hbr
          omega
      · exact List.pairwise_cons.mpr ⟨hhd, hrest⟩

theorem pairwise_sortByPriorityDesc (l : List Task) :
    (TaskManager.sortByPriorityDesc l).Pairwise
      (fun a b => b.priority ≤ a.priority) := by
  induction l with
  | nil => simp [TaskManager.sortByPriorityDesc]
  | cons hd rest ih => exact pairwise_insertByPriorityDesc hd _ ih

theorem getPendingTasks_sorted (st : TMState) :
    (TaskManager.getPendingTasks st).Pairwise
      (fun a b => b.priority ≤ a.priority) :=
  pairwise_sortByPriorityDesc _

/-- C10: async video tasks are created with priority HIGH (10) while
async image-generation and image-composition tasks are created with
priority NORMAL (5); the pending list is sorted by non-increasing
priority, and the scheduler's admission choice is a prefix of that list
skipping already-running ids, so whenever an image task is admitted in a
tick, every pending higher-priority video task is admitted as well — the
video task is never admitted after the image task. -/
theorem video_priority_admission :
    (∀ (st : TMState) (now newId : Nat),
        (submitVideoGenerationTask st now newId).1.priority = TaskPriority.HIGH) ∧
    (∀ (st : TMState) (now newId : Nat),
        (submitImageGenerationTask st now newId).1.priority = TaskPriority.NORMAL) ∧
    (∀ (st : TMState) (now newId : Nat),
        (submitImageCompositionTask st now newId).1.priority = TaskPriority.NORMAL) ∧
    TaskPriority.NORMAL < TaskPriority.HIGH ∧
    (∀ st : TMState, (TaskManager.getPendingTasks st).Pairwise
        (fun a b => b.priority ≤ a.priority)) ∧
    (∀ (st : TMState) (running : List Nat) (m : Nat) (v im : Task),
        v ∈ (TaskManager.getPendingTasks st).filter (fun t => ¬ t.id ∈ running) →
        im ∈ TaskProcessor.processPendingTasksPick st running m →
        im.priority < v.priority →
        v ∈ TaskProcessor.processPendingTasksPick st running m) := by
  refine ⟨fun _ _ _ => rfl, fun _ _ _ => rfl, fun _ _ _ => rfl, by decide,
    getPendingTasks_sorted, ?_⟩
  intro st running m v im hv him hlt
  unfold TaskProcessor.processPendingTasksPick at him ⊢
  by_cases hcap : m ≤ running.length
  · rw [if_pos hcap] at him
    simp at him
  · rw [if_neg hcap] at him ⊢
    have hpair : ((TaskManager.getPendingTasks st).filter
        (fun t => ¬ t.id ∈ running)).Pairwise
        (fun a b => b.priority ≤ a.priority) :=
      (getPendingTasks_sorted st).sublist (List.filter_sublist _)
    have hsplit := List.take_append_drop (m - running.length)
      ((TaskManager.getPendingTasks st).filter (fun t => ¬ t.id ∈ running))
    have hp2 := hsplit.symm ▸ hpair
    rw [List.pairwise_append] at hp2
    obtain ⟨_, _, hcross⟩ := hp2
    have hv2 : v ∈ ((TaskManager.getPendingTasks st).filter
          (fun t => ¬ t.id ∈ running)).take (m - running.length) ∨
        v ∈ ((TaskManager.getPendingTasks st).filter
          (fun t => ¬ t.id ∈ running)).drop (m - running.length) := by
      rw [← List.mem_append, hsplit]
      exact hv
    rcases hv2 with h | h
    · exact h
    · exact absurd (hcross im him v h) (by omega)

/-- C10 witness: with a pending image task and a pending video task, the
admission prefix containing the image task also contains the video
task. -/
theorem video_priority_admission_witness :
    (submitVideoGenerationTask stTwoBase 1 2).1.priority = TaskPriority.HIGH ∧
    taskVideo0 ∈ TaskProcessor.processPendingTasksPick stTwo [] 10 := by
  refine ⟨video_priority_admission.1 stTwoBase 1 2, ?_⟩
  exact video_priority_admission.2.2.2.2.2 stTwo [] 10 taskVideo0 taskImage0
    (by decide) (by decide) (by decide)

/-! ## C9 — upload pipeline retry policy -/

theorem putLoop_attempts_le (outs : List FetchOutcome) (a : Nat)
    (ha : a ≤ putMaxRetries) :
    (putLoop a outs).2.2 ≤ putMaxRetries + 1 - a := by
  induction outs generalizing a with
  | nil =>
    show (0 : Nat) ≤ _
    omega
  | cons o rest ih =>
    cases o with
    | response ok =>
      show (1 : Nat) ≤ _
      omega
    | fetchError network =>
      simp only [putLoop]
      by_cases hc : putMaxRetries ≤ a
      · rw [if_pos hc]
        show (1 : Nat) ≤ _
        omega
      · rw [if_neg hc]
        rcases hrec : putLoop (a + 1) rest with ⟨r, ds, n⟩
        have h4 : n ≤ putMaxRetries + 1 - (a + 1) := by
          have h5 := ih (a + 1) (by omega)
          rw [hrec] at h5
          exact h5
        simp only [hrec]
        show n + 1 ≤ _
        omega

theorem putLoop_delays (outs : List FetchOutcome) (a : Nat) :
    (putLoop a outs).2.1 = putDelaysPolicy a outs := by
  induction outs generalizing a with
  | nil => rfl
  | cons o rest ih =>
    cases o with
    | response ok => rfl
    | fetchError network =>
      simp only [putLoop, putDelaysPolicy]
      by_cases hc : putMaxRetries ≤ a
      · rw [if_pos hc, if_pos hc]
      · rw [if_neg hc, if_neg hc]
        rcases hrec : putLoop (a + 1) rest with ⟨r, ds, n⟩
        have h4 : ds = putDelaysPolicy (a + 1) rest := by
          have h5 := ih (a + 1)
          rw [hrec] at h5
          exact h5
        simp only [hrec]
        show a * 2000 :: ds = _
        rw [h4]

theorem uploadPut_tail (outs : List FetchOutcome) :
    (uploadPut outs).2 = (putLoop 1 outs).2 := by
  unfold uploadPut
  rcases hp : putLoop 1 outs with ⟨r, ds, n⟩
  rcases r with e | b
  · rfl
  · cases b <;> rfl

theorem commitLoop_attempts_le (outs : List FetchOutcome) (clocks : List Nat)
    (a : Nat) (ha : a ≤ commitMaxRetries) :
    ((commitLoop a outs clocks).2.2).length ≤ commitMaxRetries + 1 - a := by
  induction outs generalizing clocks a with
  | nil =>
    cases clocks <;> (show (0 : Nat) ≤ _; omega)
  | cons o rest ih =>
    cases clocks with
    | nil =>
      show (0 : Nat) ≤ _
      omega
    | cons c crest =>
      cases o with
      | response ok =>
        cases ok
        · simp only [commitLoop]
          by_cases hc : commitMaxRetries ≤ a
          · rw [if_pos hc]
            show (1 : Nat) ≤ _
            omega
          · rw [if_neg hc]
            rcases hrec : commitLoop (a + 1) rest crest with ⟨r, ds, ts⟩
            have h4 : ts.length ≤ commitMaxRetries + 1 - (a + 1) := by
              have h5 := ih crest (a + 1) (by omega)
              rw [hrec] at h5
              exact h5
            simp only [hrec]
            show ts.length + 1 ≤ _
            omega
        · show (1 : Nat) ≤ _
          omega
      | fetchError network =>
        simp only [commitLoop]
        by_cases hc : commitMaxRetries ≤ a
        · rw [if_pos hc]
          show (1 : Nat) ≤ _
          omega
        · rw [if_neg hc]
          rcases hrec : commitLoop (a + 1) rest crest with ⟨r, ds, ts⟩
          have h4 : ts.length ≤ commitMaxRetries + 1 - (a + 1) := by
            have h5 := ih crest (a + 1) (by omega)
            rw [hrec] at h5
            exact h5
          simp only [hrec]
          show ts.length + 1 ≤ _
          omega

theorem commitLoop_delays (outs : List FetchOutcome) (clocks : List Nat)
    (a : Nat) (h : outs.length ≤ clocks.length) :
    (commitLoop a outs clocks).2.1 = commitDelaysPolicy a outs := by
  induction outs generalizing clocks a with
  | nil => cases clocks <;> rfl
  | cons o rest ih =>
    cases clocks with
    | nil => simp at h
    | cons c crest =>
      have h2 : rest.length ≤ crest.length := by simpa using h
      cases o with
      | response ok =>
        cases ok
        · simp only [commitLoop, commitDelaysPolicy]
          by_cases hc : commitMaxRetries ≤ a
          · rw [if_pos hc, if_pos hc]
          · rw [if_neg hc, if_neg hc]
            rcases hrec : commitLoop (a + 1) rest crest with ⟨r, ds, ts⟩
            have h4 : ds = commitDelaysPolicy (a + 1) rest := by
              have h5 := ih crest (a + 1) h2
              rw [hrec] at h5
              exact h5
            simp only [hrec]
            exact h4
        · rfl
      | fetchError network =>
        simp only [commitLoop, commitDelaysPolicy]
        by_cases hc : commitMaxRetries ≤ a
        · rw [if_pos hc, if_pos hc]
        · rw [if_neg hc, if_neg hc]
          rcases hrec : commitLoop (a + 1) rest crest with ⟨r, ds, ts⟩
          have h4 : ds = commitDelaysPolicy (a + 1) rest := by
            have h5 := ih crest (a + 1) h2
            rw [hrec] at h5
            exact h5
          simp only [hrec]
          show (a * if network then 3000 else 2000) :: ds = _
          rw [h4]

theorem commitLoop_timestamps (outs : List FetchOutcome) (clocks : List Nat)
    (a : Nat) :
    (commitLoop a outs clocks).2.2
      = clocks.take ((commitLoop a outs clocks).2.2).length := by
  induction outs generalizing clocks a with
  | nil => cases clocks <;> rfl
  | cons o rest ih =>
    cases clocks with
    | nil => rfl
    | cons c crest =>
      cases o with
      | response ok =>
        cases ok
        · simp only [commitLoop]
          by_cases hc : commitMaxRetries ≤ a
          · rw [if_pos hc]
            rfl
          · rw [if_neg hc]
            rcases hrec : commitLoop (a + 1) rest crest with ⟨r, ds, ts⟩
            have h4 : ts = crest.take ts.length := by
              have h5 := ih crest (a + 1)
              rw [hrec] at h5
              exact h5
            simp only [hrec]
            show c :: ts = (c :: crest).take (c :: ts).length
            rw [List.length_cons, List.take_succ_cons, ← h4]
        · rfl
      | fetchError network =>
        simp only [commitLoop]
        by_cases hc : commitMaxRetries ≤ a
        · rw [if_pos hc]
          rfl
        · rw [if_neg hc]
          rcases hrec : commitLoop (a + 1) rest crest with ⟨r, ds, ts⟩
          have h4 : ts = crest.take ts.length := by
            have h5 := ih crest (a + 1)
            rw [hrec] at h5
            exact h5
          simp only [hrec]
          show c :: ts = (c :: crest).take (c :: ts).length
          rw [List.length_cons, List.take_succ_cons, ← h4]

/-- C9 counterexample: a network error on the first PUT attempt is
retried after 1 × 2000 ms — the PUT loop applies the 2-second backoff to
every fetch error, not the claimed 3-second network-error backoff. -/
theorem put_network_backoff_two_seconds :
    (uploadPut [FetchOutcome.fetchError true, FetchOutcome.response true]).2.1 = [2000] ∧
    claimedNetworkBackoffMs 1 = 3000 ∧
    ((2000 : Nat) ≠ 3000) := by
  decide

/-- C9 (amended): both retried steps make at most 3 attempts with a 30 s
per-attempt timeout; the PUT step's backoff is attempt × 2 s for every
retried error (network errors included), while only the commit step
distinguishes network errors (attempt × 3 s, attempt × 2 s otherwise,
and no wait before retrying an HTTP-status error); each commit attempt
reads a fresh clock instant for its `x-amz-date` and signature; and the
token-acquire and apply steps each happen at most once per upload. -/
theorem upload_retry_policy :
    (putAttemptTimeoutMs = 30000 ∧ commitAttemptTimeoutMs = 30000) ∧
    (∀ outs, (uploadPut outs).2.2 ≤ putMaxRetries) ∧
    (∀ outs, (uploadPut outs).2.1 = putDelaysPolicy 1 outs) ∧
    (∀ outs clocks, ((commitLoop 1 outs clocks).2.2).length ≤ commitMaxRetries) ∧
    (∀ outs clocks, outs.length ≤ clocks.length →
        (commitLoop 1 outs clocks).2.1 = commitDelaysPolicy 1 outs) ∧
    (∀ outs clocks, (commitLoop 1 outs clocks).2.2
        = clocks.take ((commitLoop 1 outs clocks).2.2).length) ∧
    (∀ (tokenOk applyOk : Bool) (putOuts commitOuts : List FetchOutcome)
        (clocks : List Nat), ∃ n k, n ≤ putMaxRetries ∧ k ≤ commitMaxRetries ∧
        ((uploadImageBuffer tokenOk applyOk putOuts commitOuts clocks).2
            = [UploadEvent.getUploadTokenEv] ∨
         (uploadImageBuffer tokenOk applyOk putOuts commitOuts clocks).2
            = [UploadEvent.getUploadTokenEv, UploadEvent.applyImageUploadEv]
                ++ List.replicate n UploadEvent.putAttemptEv
                ++ List.replicate k UploadEvent.commitAttemptEv)) := by
  have hput_att : ∀ outs, (uploadPut outs).2.2 ≤ putMaxRetries := by
    intro outs
    have h1 : (uploadPut outs).2 = (putLoop 1 outs).2 := uploadPut_tail outs
    have h2 := putLoop_attempts_le outs 1 (by decide)
    rw [h1]
    omega
  have hcommit_att : ∀ outs clocks,
      ((commitLoop 1 outs clocks).2.2).length ≤ commitMaxRetries := by
    intro outs clocks
    have := commitLoop_attempts_le outs clocks 1 (by decide)
    omega
  refine ⟨⟨rfl, rfl⟩, hput_att, ?_, hcommit_att, ?_, ?_, ?_⟩
  · intro outs
    have h1 : (uploadPut outs).2 = (putLoop 1 outs).2 := uploadPut_tail outs
    rw [h1]
    exact putLoop_delays outs 1
  · intro outs clocks h
    exact commitLoop_delays outs clocks 1 h
  · intro outs clocks
    exact commitLoop_timestamps outs clocks 1
  · intro tokenOk applyOk putOuts commitOuts clocks
    unfold uploadImageBuffer
    cases tokenOk
    · exact ⟨0, 0, by decide, by decide, Or.inl rfl⟩
    · cases applyOk
      · refine ⟨0, 0, by decide, by decide, Or.inr ?_⟩
        simp
      · rcases hp : uploadPut putOuts with ⟨r, ds, n⟩
        have hn : n ≤ putMaxRetries := by
          have := hput_att putOuts
          rw [hp] at this
          exact this
        rcases r with e | u
        · refine ⟨n, 0, hn, by decide, Or.inr ?_⟩
          simp [hp]
        · rcases hcm : commitLoop 1 commitOuts clocks with ⟨rc, dsc, tsc⟩
          have hk : tsc.length ≤ commitMaxRetries := by
            have := hcommit_att commitOuts clocks
            rw [hcm] at this
            exact this
          refine ⟨n, tsc.length, hn, hk, Or.inr ?_⟩
          simp [hp, hcm]

/-- C9 witness: the amended policy evaluated on a concrete run — two
commit fetch failures (one network, one not) produce backoffs 3000 then
4000 ms and consume three clock instants. -/
theorem upload_retry_policy_witness :
    (commitLoop 1
        [FetchOutcome.fetchError true, FetchOutcome.fetchError false,
         FetchOutcome.response true] [40, 41, 42, 43]).2.1
      = commitDelaysPolicy 1
        [FetchOutcome.fetchError true, FetchOutcome.fetchError false,
         FetchOutcome.response true] := by
  exact upload_retry_policy.2.2.2.2.1
    [FetchOutcome.fetchError true, FetchOutcome.fetchError false,
     FetchOutcome.response true] [40, 41, 42, 43] (by decide)

end Drraw
